import Mathlib

/-
Verification development for the linear-varying-vortex-panel solver
(source files: lvvp.py, main.py).

The Python source works with IEEE floating point and the math/numpy
transcendental functions.  We embed it shallowly over an arbitrary
linearly ordered field K together with a record of the transcendental
functions the source calls (pi, cos, sin, acos, sqrt, atan, log).
Instantiating that record at the real numbers with the genuine
Real.cos, Real.sin, ... gives the exact-real-arithmetic semantics of
the source; instantiating it at the rationals with computable dummy
functions lets concrete runs be evaluated by the kernel, which we use
for witnesses.  Structural facts (branch selection, matrix shape,
panel counts, error propagation) do not depend on which functions are
plugged in, so they are proved once, generically.

Python exceptions are modelled with Except:
  - math.log raises ValueError (a math domain error) on a zero
    argument, which happens in the degenerate kernel branch exactly
    when 2*B*x+P vanishes at an evaluation endpoint x in {0,1};
  - a failed bracketing search in define_panels runs the scan pointer
    off the end of the coordinate array and the subsequent x[I+1]
    access raises; we surface that as the geometry error of the
    discretizer.
-/

namespace LVVP

/-- The record of transcendental operations the source calls
(math.pi, math.cos, math.sin, math.acos, math.sqrt, math.atan,
math.log).  The genuine instance is realOps below. -/
structure RealOps (K : Type) where
  piv : K
  cosf : K → K
  sinf : K → K
  arccosf : K → K
  sqrtf : K → K
  atanf : K → K
  logf : K → K

/-- The real instance: the actual functions the Python source calls,
in exact real arithmetic. -/
noncomputable def realOps : RealOps ℝ :=
  { piv := Real.pi
    cosf := Real.cos
    sinf := Real.sin
    arccosf := Real.arccos
    sqrtf := Real.sqrt
    atanf := Real.arctan
    logf := Real.log }

/-- The location tag of a panel; the source stores the strings
upper and lower. -/
inductive Loc : Type where
  | upper : Loc
  | lower : Loc
deriving DecidableEq, Repr

/-- A panel record.  The source class Panel stores the two endpoints,
the centre, the length, the orientation angle beta, the unit normal
and the location tag as instance attributes, all set in __init__. -/
structure Panel (K : Type) where
  xa : K
  za : K
  xb : K
  zb : K
  xc : K
  zc : K
  length : K
  beta : K
  nx : K
  nz : K
  loc : Loc
deriving DecidableEq

variable {K : Type} [LinearOrderedField K]

/-- Panel.__init__: centre is the midpoint, length the Euclidean
distance between the endpoints, beta the orientation angle (acos of
the normalized z-increment, shifted by pi when xb-xa > 0), the normal
(cos beta, sin beta), and the location tag upper when beta <= pi. -/
def mkPanel (ops : RealOps K) (xa za xb zb : K) : Panel K :=
  let len := ops.sqrtf ((xb - xa) ^ 2 + (zb - za) ^ 2)
  let beta :=
    if xb - xa ≤ 0 then ops.arccosf ((zb - za) / len)
    else ops.piv + ops.arccosf (-(zb - za) / len)
  { xa := xa, za := za, xb := xb, zb := zb
    xc := (xa + xb) / 2, zc := (za + zb) / 2
    length := len
    beta := beta
    nx := ops.cosf beta, nz := ops.sinf beta
    loc := if beta ≤ ops.piv then Loc.upper else Loc.lower }

/-- A default panel, used only as the out-of-range default of list
lookups that the source never performs out of range. -/
def panelDefault (ops : RealOps K) : Panel K := mkPanel ops 0 0 0 0

/-- Freestream.__init__ stores the speed and the angle of attack. -/
structure Freestream (K : Type) where
  v_inf : K
  alpha : K
deriving DecidableEq

/-- The error raised inside panel_contribution: math.log raises a
ValueError (math domain error) when its argument vanishes. -/
inductive KernelError : Type where
  | domainError : KernelError
deriving DecidableEq, Repr

/-- Componentwise addition of 2-vectors. -/
def vadd (u v : K × K) : K × K := (u.1 + v.1, u.2 + v.2)

/-- Componentwise subtraction of 2-vectors. -/
def vsub (u v : K × K) : K × K := (u.1 - v.1, u.2 - v.2)

/-- Scaling of a 2-vector. -/
def vscale (c : K) (v : K × K) : K × K := (c * v.1, c * v.2)

/-- The perpendicular rotation numpy.array([[vc[1]],[-vc[0]]]) the
source applies to each geometric offset vector. -/
def rotP (v : K × K) : K × K := (v.2, -v.1)

/-- Regular-branch antiderivative Fji from the source. -/
def Fji (ops : RealOps K) (delta A B P x : K) : K :=
  P * ops.atanf ((2 * B * x + P) / ops.sqrtf delta) / (B * ops.sqrtf delta)
  + 2 * ops.atanf ((2 * B * x + P) / ops.sqrtf delta) / ops.sqrtf delta
  + -(ops.logf (A + x * (B * x + P)) / (2 * B))

/-- Regular-branch antiderivative Fjj from the source. -/
def Fjj (ops : RealOps K) (delta A B P x : K) : K :=
  P ^ 2 * ops.atanf ((2 * B * x + P) / ops.sqrtf delta) / (B ^ 2 * ops.sqrtf delta)
  + -(P * ops.logf (A + x * (B * x + P)) / (2 * B ^ 2))
  + 2 * P * ops.atanf ((2 * B * x + P) / ops.sqrtf delta) / (B * ops.sqrtf delta)
  + -(2 * A * ops.atanf ((2 * B * x + P) / ops.sqrtf delta) / (B * ops.sqrtf delta))
  + 2 * ops.atanf ((2 * B * x + P) / ops.sqrtf delta) / ops.sqrtf delta
  + -(ops.logf (A + x * (B * x + P)) / B)
  + x / B
  + -(1 / B)

/-- Regular-branch antiderivative Fjj1 from the source. -/
def Fjj1 (ops : RealOps K) (delta A B P x : K) : K :=
  -(P ^ 2 * ops.atanf ((2 * B * x + P) / ops.sqrtf delta) / (B ^ 2 * ops.sqrtf delta))
  + P * ops.logf (A + x * (B * x + P)) / (2 * B ^ 2)
  + -(P * ops.atanf ((2 * B * x + P) / ops.sqrtf delta) / (B * ops.sqrtf delta))
  + 2 * A * ops.atanf ((2 * B * x + P) / ops.sqrtf delta) / (B * ops.sqrtf delta)
  + ops.logf (A + x * (B * x + P)) / (2 * B)
  + -(x / B)

/-- Regular-branch antiderivative Fj1i from the source. -/
def Fj1i (ops : RealOps K) (delta A B P x : K) : K :=
  ops.logf (A + B * x ^ 2 + P * x) / (2 * B)
  + -(P * ops.atanf ((2 * B * x + P) / ops.sqrtf delta) / (B * ops.sqrtf delta))

/-- Regular-branch antiderivative Fj1j from the source; the source
body just calls Fjj1. -/
def Fj1j (ops : RealOps K) (delta A B P x : K) : K :=
  Fjj1 ops delta A B P x

/-- Regular-branch antiderivative Fj1j1 from the source. -/
def Fj1j1 (ops : RealOps K) (delta A B P x : K) : K :=
  -((2 * A * B - P ^ 2) * ops.atanf ((2 * B * x + P) / ops.sqrtf delta) / (B ^ 2 * ops.sqrtf delta))
  + -(P * ops.logf (A + B * x ^ 2 + P * x) / (2 * B ^ 2))
  + x / B

/-- Degenerate-branch antiderivative Fji0 from the source. -/
def Fji0 (ops : RealOps K) (A B P x : K) : K :=
  -(P / (B * (2 * B * x + P)))
  + -(2 / (2 * B * x + P))
  + -(P * ops.logf (abs (2 * B * x + P)) / (B * (2 * B * x + P)))
  + -(2 * x * ops.logf (abs (2 * B * x + P)) / (2 * B * x + P))

/-- Degenerate-branch antiderivative Fjj0 from the source. -/
def Fjj0 (ops : RealOps K) (A B P x : K) : K :=
  -(P ^ 2 / (2 * B ^ 2 * (2 * B * x + P)))
  + -(P ^ 2 * ops.logf (abs (2 * B * x + P)) / (B ^ 2 * (2 * B * x + P)))
  + 2 * x ^ 2 / (2 * B * x + P)
  + P * x / (B * (2 * B * x + P))
  + -(3 * P / (B * (2 * B * x + P)))
  + -(2 * x / (2 * B * x + P))
  + -(2 / (2 * B * x + P))
  + -(2 * P * x * ops.logf (abs (2 * B * x + P)) / (B * (2 * B * x + P)))
  + -(2 * P * ops.logf (abs (2 * B * x + P)) / (B * (2 * B * x + P)))
  + -(4 * x * ops.logf (abs (2 * B * x + P)) / (2 * B * x + P))

/-- Degenerate-branch antiderivative Fjj10 from the source. -/
def Fjj10 (ops : RealOps K) (A B P x : K) : K :=
  B * (-(2 * B * x ^ 2) - 2 * P * x + P) / (B ^ 2 * (2 * B * x + P))
  + (B + P) * (2 * B * x + P) * ops.logf (abs (2 * B * x + P)) / (B ^ 2 * (2 * B * x + P))

/-- Degenerate-branch antiderivative Fj1i0 from the source. -/
def Fj1i0 (ops : RealOps K) (A B P x : K) : K :=
  ((2 * B * x + P) * ops.logf (abs (2 * B * x + P)) + P) / (B * (2 * B * x + P))

/-- Degenerate-branch antiderivative Fj1j0 from the source; the source
body just calls Fjj10. -/
def Fj1j0 (ops : RealOps K) (A B P x : K) : K :=
  Fjj10 ops A B P x

/-- Degenerate-branch antiderivative Fj1j10 from the source. -/
def Fj1j10 (ops : RealOps K) (A B P x : K) : K :=
  -(P ^ 2 / (2 * B ^ 2 * (2 * B * x + P)))
  + -(P * ops.logf (abs (2 * B * x + P)) / B ^ 2)
  + x / B

/-- The velocity accumulated by the regular (delta-convergent) branch
of panel_contribution: six terms, each 1/(2 pi) times a strength
times the perpendicular rotation of an offset vector times the panel
length times an antiderivative difference F(1) - F(0). -/
def regularVel (ops : RealOps K) (p : Panel K) (ri : K × K) (gj gj1 : K) : K × K :=
  let Lj := p.length
  let rj : K × K := (p.xa, p.za)
  let rj1 : K × K := (p.xb, p.zb)
  let Aji : K × K := (ri.1 - rj.1, ri.2 - rj.2)
  let Bj : K × K := (rj.1 - rj1.1, rj.2 - rj1.2)
  let P := 2 * (Aji.1 * Bj.1 + Aji.2 * Bj.2)
  let A := Aji.1 * Aji.1 + Aji.2 * Aji.2
  let B := Bj.1 * Bj.1 + Bj.2 * Bj.2
  let delta := 4 * A * B - P ^ 2
  let c := 1 / (2 * ops.piv)
  vsub (vsub (vadd (vsub (vsub
    (vscale (c * gj * Lj * (Fji ops delta A B P 1 - Fji ops delta A B P 0)) (rotP ri))
    (vscale (c * gj * Lj * (Fjj ops delta A B P 1 - Fjj ops delta A B P 0)) (rotP rj)))
    (vscale (c * gj * Lj * (Fjj1 ops delta A B P 1 - Fjj1 ops delta A B P 0)) (rotP rj1)))
    (vscale (c * gj1 * Lj * (Fj1i ops delta A B P 1 - Fj1i ops delta A B P 0)) (rotP ri)))
    (vscale (c * gj1 * Lj * (Fj1j ops delta A B P 1 - Fj1j ops delta A B P 0)) (rotP rj)))
    (vscale (c * gj1 * Lj * (Fj1j1 ops delta A B P 1 - Fj1j1 ops delta A B P 0)) (rotP rj1))

/-- The velocity accumulated by the degenerate (collinear) branch of
panel_contribution, using the alternate antiderivative families. -/
def degenVel (ops : RealOps K) (p : Panel K) (ri : K × K) (gj gj1 : K) : K × K :=
  let Lj := p.length
  let rj : K × K := (p.xa, p.za)
  let rj1 : K × K := (p.xb, p.zb)
  let Aji : K × K := (ri.1 - rj.1, ri.2 - rj.2)
  let Bj : K × K := (rj.1 - rj1.1, rj.2 - rj1.2)
  let P := 2 * (Aji.1 * Bj.1 + Aji.2 * Bj.2)
  let A := Aji.1 * Aji.1 + Aji.2 * Aji.2
  let B := Bj.1 * Bj.1 + Bj.2 * Bj.2
  let c := 1 / (2 * ops.piv)
  vsub (vsub (vadd (vsub (vsub
    (vscale (c * gj * Lj * (Fji0 ops A B P 1 - Fji0 ops A B P 0)) (rotP ri))
    (vscale (c * gj * Lj * (Fjj0 ops A B P 1 - Fjj0 ops A B P 0)) (rotP rj)))
    (vscale (c * gj * Lj * (Fjj10 ops A B P 1 - Fjj10 ops A B P 0)) (rotP rj1)))
    (vscale (c * gj1 * Lj * (Fj1i0 ops A B P 1 - Fj1i0 ops A B P 0)) (rotP ri)))
    (vscale (c * gj1 * Lj * (Fj1j0 ops A B P 1 - Fj1j0 ops A B P 0)) (rotP rj)))
    (vscale (c * gj1 * Lj * (Fj1j10 ops A B P 1 - Fj1j10 ops A B P 0)) (rotP rj1))

/-- The velocity value panel_contribution computes when no exception
is raised: the regular branch when delta exceeds the threshold, the
degenerate branch otherwise. -/
def pcTotal (ops : RealOps K) (p : Panel K) (ri : K × K) (gj gj1 DELTA_THRSH : K) : K × K :=
  let Aji : K × K := (ri.1 - p.xa, ri.2 - p.za)
  let Bj : K × K := (p.xa - p.xb, p.za - p.zb)
  let P := 2 * (Aji.1 * Bj.1 + Aji.2 * Bj.2)
  let A := Aji.1 * Aji.1 + Aji.2 * Aji.2
  let B := Bj.1 * Bj.1 + Bj.2 * Bj.2
  let delta := 4 * A * B - P ^ 2
  if delta ≤ DELTA_THRSH then degenVel ops p ri gj gj1 else regularVel ops p ri gj gj1

/-- panel_contribution from the source.  It computes the geometric
scalars A, B, P and the discriminant delta = 4AB - P^2, sets
delta_convergence to false exactly when delta <= DELTA_THRSH, and
evaluates the regular antiderivatives when delta_convergence holds
and the degenerate ones otherwise.  In the degenerate branch the
source evaluates ops.logf (abs (2*B*x+P)) at x = 1 and x = 0; when
that argument vanishes math.log raises its domain error, which we
surface as KernelError.domainError. -/
def panel_contribution (ops : RealOps K) (p : Panel K) (ri : K × K)
    (gj gj1 DELTA_THRSH : K) : Except KernelError (K × K) :=
  let Aji : K × K := (ri.1 - p.xa, ri.2 - p.za)
  let Bj : K × K := (p.xa - p.xb, p.za - p.zb)
  let P := 2 * (Aji.1 * Bj.1 + Aji.2 * Bj.2)
  let A := Aji.1 * Aji.1 + Aji.2 * Aji.2
  let B := Bj.1 * Bj.1 + Bj.2 * Bj.2
  let delta := 4 * A * B - P ^ 2
  if delta ≤ DELTA_THRSH then
    if 2 * B * 1 + P = 0 ∨ 2 * B * 0 + P = 0 then Except.error KernelError.domainError
    else Except.ok (degenVel ops p ri gj gj1)
  else Except.ok (regularVel ops p ri gj gj1)

/-- Whether an Except value is a success. -/
def exOk {E A : Type} : Except E A → Bool
  | Except.ok _ => true
  | Except.error _ => false

/-- Whether every panel_contribution call performed by lhs_setup
succeeds: for every tangency row i and every panel j, the kernel is
queried at the centre of panel i with unit strength at each endpoint
of panel j in turn and threshold 0.  When some call raises, the
exception propagates out of lhs_setup and no matrix is returned. -/
def lhs_okB (ops : RealOps K) (ps : List (Panel K)) : Bool :=
  (List.range ps.length).all fun i =>
    (List.range ps.length).all fun j =>
      exOk (panel_contribution ops (ps.getD j (panelDefault ops))
            ((ps.getD i (panelDefault ops)).xc, (ps.getD i (panelDefault ops)).zc) 1 0 0)
      && exOk (panel_contribution ops (ps.getD j (panelDefault ops))
            ((ps.getD i (panelDefault ops)).xc, (ps.getD i (panelDefault ops)).zc) 0 1 0)

/-- The entries of the matrix lhs_setup builds.  The source allocates
an (N+1) x (N+1) zero matrix, and for each tangency row i < N adds
into column j the normal projection of the influence of panel j with
unit strength at its first endpoint, and into column j+1 the normal
projection with unit strength at its second endpoint; after the loop
it assigns 1 to the two Kutta entries (N,0) and (N,N) of the last
row.  Row N is never touched by the loop, and column j of row i < N
receives the first-endpoint term of panel j (when j < N) plus the
second-endpoint term of panel j-1 (when 1 <= j <= N). -/
def lhs_entry (ops : RealOps K) (ps : List (Panel K)) (i j : ℕ) : K :=
  let n := ps.length
  let d := panelDefault ops
  if i < n then
    let pnl := ps.getD i d
    let ri : K × K := (pnl.xc, pnl.zc)
    (if j < n then
      let v := pcTotal ops (ps.getD j d) ri 1 0 0
      pnl.nx * v.1 + pnl.nz * v.2
     else 0)
    + (if 1 ≤ j ∧ j ≤ n then
      let v := pcTotal ops (ps.getD (j - 1) d) ri 0 1 0
      pnl.nx * v.1 + pnl.nz * v.2
     else 0)
  else if i = n then
    (if j = 0 ∨ j = n then 1 else 0)
  else 0

/-- lhs_setup from the source: the assembled matrix, as a function of
row and column indices (entries outside the (N+1) x (N+1) range are
the allocation zeros), unless some kernel call raises, in which case
the exception propagates to the caller. -/
def lhs_setup (ops : RealOps K) (ps : List (Panel K)) :
    Except KernelError (ℕ → ℕ → K) :=
  if lhs_okB ops ps then Except.ok (lhs_entry ops ps) else Except.error KernelError.domainError

/-- rhs_setup from the source: a vector of length N+1 whose entry
i < N is -u*nx - w*nz for the freestream velocity (u, w), and whose
last entry keeps its allocation zero (the Kutta row). -/
def rhs_setup (ops : RealOps K) (ps : List (Panel K)) (fs : Freestream K) : List K :=
  let u := fs.v_inf * ops.cosf fs.alpha
  let w := fs.v_inf * ops.sinf fs.alpha
  (List.range (ps.length + 1)).map fun i =>
    if i < ps.length then
      -u * (ps.getD i (panelDefault ops)).nx - w * (ps.getD i (panelDefault ops)).nz
    else 0

/-- The error define_panels signals when the bracketing search over
the closed contour fails: the scan pointer reaches the end of the
coordinate array and the following x[I+1] access raises. -/
inductive GeometryError : Type where
  | bracketFailure : GeometryError
deriving DecidableEq, Repr

/-- numpy max over the coordinate array (the source arrays are
nonempty, so folding from the head is the maximum). -/
def listMax (xs : List K) : K := xs.foldl max (xs.headD 0)

/-- numpy min over the coordinate array. -/
def listMin (xs : List K) : K := xs.foldl min (xs.headD 0)

/-- The panel count actually used by define_panels: an odd request is
silently reduced by one. -/
def panelN (N : ℕ) : ℕ := if N % 2 = 1 then N - 1 else N

/-- The x-coordinate of the centre of the reference circle. -/
def xCenterOf (xs : List K) : K := (listMax xs + listMin xs) / 2

/-- The radius of the reference circle: half the x-extent, shrunk by
the fraction 1/10000. -/
def circleR (xs : List K) : K :=
  (listMax xs - listMin xs) / 2 - 1 / 10000 * ((listMax xs - listMin xs) / 2)

/-- The candidate x-abscissa of node k: the projection on the circle
of the angle 2*pi*k/N (numpy.linspace of N+1 equally spaced angles
from 0 to 2*pi). -/
def xEndAt (ops : RealOps K) (xs : List K) (N k : ℕ) : K :=
  xCenterOf xs + circleR xs * ops.cosf (2 * ops.piv * (k : K) / (N : K))

/-- Contour closure from the source: when the first and last x differ
the geometry is extended so the search polyline spans the full range
(prepend the last point when x[0] < x[-1], append the first point
when x[0] > x[-1], nothing otherwise). -/
def closeContour (xs zs : List K) : List K × List K :=
  if xs.headD 0 < xs.getLastD 0 then (xs.getLastD 0 :: xs, zs.getLastD 0 :: zs)
  else if xs.getLastD 0 < xs.headD 0 then (xs ++ [xs.headD 0], zs ++ [zs.headD 0])
  else (xs, zs)

/-- The bracketing test of the inner while loop: the candidate c lies
between x[I] and x[I+1] in either order. -/
def bracketProp (xs : List K) (c : K) (I : ℕ) : Prop :=
  (xs.getD I 0 ≤ c ∧ c ≤ xs.getD (I + 1) 0) ∨
  (xs.getD (I + 1) 0 ≤ c ∧ c ≤ xs.getD I 0)

instance (xs : List K) (c : K) (I : ℕ) : Decidable (bracketProp xs c I) := by
  unfold bracketProp; infer_instance

/-- The inner while loop of define_panels: starting from pointer I,
advance while no bracketing segment is found and the pointer is below
len(x)-1.  The fuel argument bounds the iteration count; it is always
called with fuel = xs.length, which is enough for the loop to reach
its exit condition. -/
def findI (xs : List K) (c : K) : ℕ → ℕ → ℕ
  | 0, I => I
  | fuel + 1, I =>
    if I < xs.length - 1 then
      if bracketProp xs c I then I else findI xs c fuel (I + 1)
    else I

/-- The linear interpolation of the z-coordinate at candidate c using
the bracketing segment at index I. -/
def zStation (xs zs : List K) (c : K) (I : ℕ) : K :=
  let a := (zs.getD (I + 1) 0 - zs.getD I 0) / (xs.getD (I + 1) 0 - xs.getD I 0)
  let b := zs.getD (I + 1) 0 - a * xs.getD (I + 1) 0
  a * c + b

/-- The main interpolation loop of define_panels: one pass over the
candidate abscissas, threading the scan pointer I from one candidate
to the next.  When the while loop exits without finding a bracket
the pointer sits at len(x)-1 and the x[I+1] access raises, which we
surface as the geometry error. -/
def zEndsLoop (xs zs : List K) : List K → ℕ → Except GeometryError (List K)
  | [], _ => Except.ok []
  | c :: rest, I =>
    let J := findI xs c xs.length I
    if J + 1 < xs.length then
      match zEndsLoop xs zs rest J with
      | Except.ok others => Except.ok (zStation xs zs c J :: others)
      | Except.error e => Except.error e
    else Except.error GeometryError.bracketFailure

/-- The list of candidate abscissas scanned by the loop (indices
0 to N-1 of the circle projection). -/
def candList (ops : RealOps K) (xs : List K) (N : ℕ) : List K :=
  (List.range (panelN N)).map (xEndAt ops xs (panelN N))

/-- The panels built from consecutive endpoint pairs, with
z_ends[N] = z_ends[0] forced (closure). -/
def buildPanels (ops : RealOps K) (xs : List K) (N : ℕ) (zEnds : List K) :
    List (Panel K) :=
  let zFull := zEnds ++ [zEnds.headD 0]
  (List.range (panelN N)).map fun i =>
    mkPanel ops (xEndAt ops xs (panelN N) i) (zFull.getD i 0)
      (xEndAt ops xs (panelN N) (i + 1)) (zFull.getD (i + 1) 0)

/-- define_panels from the source: reduce an odd panel request by
one, project cosine-spaced abscissas on the reference circle, close
the contour, interpolate the z-coordinates along the closed polyline
with a single threaded bracketing scan, and build the panels from
consecutive endpoint pairs.  A failed bracketing search is signalled
to the caller. -/
def define_panels (ops : RealOps K) (xs zs : List K) (N : ℕ) :
    Except GeometryError (List (Panel K)) :=
  match zEndsLoop (closeContour xs zs).1 (closeContour xs zs).2 (candList ops xs N) 0 with
  | Except.error e => Except.error e
  | Except.ok zEnds => Except.ok (buildPanels ops xs N zEnds)

/-- The discretizer instantiated at the real numbers: the semantics
of the Python define_panels in exact real arithmetic. -/
noncomputable def define_panelsR (xs zs : List ℝ) (N : ℕ) :
    Except GeometryError (List (Panel ℝ)) :=
  define_panels realOps xs zs N

/-- The inner accumulation of panels_contribution at one grid point:
sum the contribution of every panel k with the endpoint strengths
vortices[k] and vortices[k+1]; a kernel exception propagates. -/
def velSumAux (ops : RealOps K) (ps : List (Panel K)) (vort : List K) (ri : K × K) :
    List ℕ → K × K → Except KernelError (K × K)
  | [], acc => Except.ok acc
  | k :: rest, acc =>
    match panel_contribution ops (ps.getD k (panelDefault ops)) ri
        (vort.getD k 0) (vort.getD (k + 1) 0) 0 with
    | Except.ok v => velSumAux ops ps vort ri rest (vadd acc v)
    | Except.error e => Except.error e

/-- panels_contribution from the source: for every grid point (i,j)
sum the influence of all panels, and return the grids of the two
velocity components. -/
def panels_contribution (ops : RealOps K) (ps : List (Panel K)) (vort : List K)
    (X Y : List (List K)) : Except KernelError (List (List K) × List (List K)) :=
  match (List.zip X Y).mapM (fun rowPair =>
      (List.zip rowPair.1 rowPair.2).mapM (fun q =>
        velSumAux ops ps vort (q.1, q.2) (List.range ps.length) (0, 0))) with
  | Except.ok grid =>
      Except.ok (grid.map (List.map Prod.fst), grid.map (List.map Prod.snd))
  | Except.error e => Except.error e

/-
State-passing versions.  A Python caller hands panel_contribution,
lhs_setup, rhs_setup and panels_contribution mutable objects (Panel
instances and a Freestream instance); the functions could in
principle assign to their attributes.  The source bodies of these
four functions contain no attribute assignment to any input (they
only read panel.xa, panel.za, panel.xb, panel.zb, panel.length,
panel.xc, panel.zc, panel.nx, panel.nz, freestream.v_inf and
freestream.alpha), so the state component of each embedded version
is the input object graph unchanged.
-/

/-- panel_contribution together with the final state of its panel
argument (unchanged: the source body never assigns to the panel). -/
def panel_contributionS (ops : RealOps K) (p : Panel K) (ri : K × K)
    (gj gj1 DELTA_THRSH : K) : Except KernelError (K × K) × Panel K :=
  (panel_contribution ops p ri gj gj1 DELTA_THRSH, p)

/-- lhs_setup together with the final state of its panel list
(unchanged: the source body never assigns to any panel). -/
def lhs_setupS (ops : RealOps K) (ps : List (Panel K)) :
    Except KernelError (ℕ → ℕ → K) × List (Panel K) :=
  (lhs_setup ops ps, ps)

/-- rhs_setup together with the final state of its panel list and
freestream (unchanged: the source body never assigns to either). -/
def rhs_setupS (ops : RealOps K) (ps : List (Panel K)) (fs : Freestream K) :
    List K × (List (Panel K) × Freestream K) :=
  (rhs_setup ops ps fs, (ps, fs))

/-- panels_contribution together with the final state of its panel
list and strength vector (unchanged: the source body never assigns
to either). -/
def panels_contributionS (ops : RealOps K) (ps : List (Panel K)) (vort : List K)
    (X Y : List (List K)) :
    Except KernelError (List (List K) × List (List K)) × (List (Panel K) × List K) :=
  (panels_contribution ops ps vort X Y, (ps, vort))

/-- Computable dummy operations over the rationals, used to run the
generic definitions on concrete inputs inside witnesses.  The
structural theorems hold for every operation record, in particular
for this one. -/
def ratOps : RealOps ℚ :=
  { piv := 0
    cosf := id
    sinf := id
    arccosf := id
    sqrtf := id
    atanf := id
    logf := id }

/-- Dummy rational operations whose cosine is the constant 5, pushing
every candidate abscissa outside the x-extent of the input geometry:
used to witness the bracketing-failure behaviour. -/
def ratOpsFar : RealOps ℚ :=
  { piv := 0
    cosf := fun _ => 5
    sinf := id
    arccosf := id
    sqrtf := id
    atanf := id
    logf := id }

/-! Helper lemmas shared by several claims. -/

theorem getD_range_map {α : Type} (f : ℕ → α) (n i : ℕ) (d : α) (h : i < n) :
    ((List.range n).map f).getD i d = f i := by
  rw [List.getD_eq_getElem _ _ (by simpa using h)]
  simp

/-- C1: panel_contribution computes A = squared distance from the
target to the first endpoint of the panel, B = the squared panel
length, P = 2*(ri - rj) dot (rj - rj1) and delta = 4AB - P^2, and it
evaluates the regular (arctangent and logarithm) antiderivative
branch exactly when delta > DELTA_THRSH; otherwise it takes the
degenerate branch (rational and logarithmic in 2Bx+P), which raises
the math domain error exactly when 2Bx+P vanishes at an evaluation
endpoint. -/
theorem c1_kernel_scalars_and_branch (ops : RealOps K) (p : Panel K) (ri : K × K)
    (gj gj1 t : K) :
    panel_contribution ops p ri gj gj1 t =
      (let A := (ri.1 - p.xa) ^ 2 + (ri.2 - p.za) ^ 2
       let B := (p.xb - p.xa) ^ 2 + (p.zb - p.za) ^ 2
       let P := 2 * ((ri.1 - p.xa) * (p.xa - p.xb) + (ri.2 - p.za) * (p.za - p.zb))
       if 4 * A * B - P ^ 2 > t then Except.ok (regularVel ops p ri gj gj1)
       else if 2 * B * 1 + P = 0 ∨ 2 * B * 0 + P = 0 then
         Except.error KernelError.domainError
       else Except.ok (degenVel ops p ri gj gj1)) := by
  show (if _ ≤ t then _ else _) = _
  have hA : (ri.1 - p.xa) * (ri.1 - p.xa) + (ri.2 - p.za) * (ri.2 - p.za)
      = (ri.1 - p.xa) ^ 2 + (ri.2 - p.za) ^ 2 := by ring
  have hB : (p.xa - p.xb) * (p.xa - p.xb) + (p.za - p.zb) * (p.za - p.zb)
      = (p.xb - p.xa) ^ 2 + (p.zb - p.za) ^ 2 := by ring
  rw [hA, hB]
  rcases le_or_lt (4 * ((ri.1 - p.xa) ^ 2 + (ri.2 - p.za) ^ 2)
      * ((p.xb - p.xa) ^ 2 + (p.zb - p.za) ^ 2)
      - (2 * ((ri.1 - p.xa) * (p.xa - p.xb) + (ri.2 - p.za) * (p.za - p.zb))) ^ 2) t
    with h | h
  · rw [if_pos h, if_neg (not_lt.mpr h)]
  · rw [if_neg (not_le.mpr h), if_pos h]

/-- C7: querying panel_contribution with the target exactly at either
endpoint of the panel makes the degenerate branch fire (the
discriminant vanishes) with a vanishing 2Bx+P at an evaluation
endpoint, so the math domain error is surfaced to the caller instead
of a silently defaulted finite velocity. -/
theorem c7_endpoint_target_domain_error (ops : RealOps K) (p : Panel K) (gj gj1 : K) :
    panel_contribution ops p (p.xa, p.za) gj gj1 0 = Except.error KernelError.domainError ∧
    panel_contribution ops p (p.xb, p.zb) gj gj1 0 = Except.error KernelError.domainError := by
  constructor
  · show (if _ ≤ (0 : K) then _ else _) = _
    rw [if_pos (le_of_eq (by ring)), if_pos (Or.inr (by ring))]
  · show (if _ ≤ (0 : K) then _ else _) = _
    rw [if_pos (le_of_eq (by ring)), if_pos (Or.inl (by ring))]

/-- C9: panel_contribution, lhs_setup, rhs_setup and
panels_contribution have no side effect on their inputs: the source
bodies contain no attribute assignment, so the state components of
the embedded versions return every input object unchanged. -/
theorem c9_no_side_effects (ops : RealOps K) (p : Panel K) (ri : K × K)
    (gj gj1 t : K) (ps : List (Panel K)) (fs : Freestream K) (vort : List K)
    (X Y : List (List K)) :
    (panel_contributionS ops p ri gj gj1 t).2 = p ∧
    (lhs_setupS ops ps).2 = ps ∧
    (rhs_setupS ops ps fs).2 = (ps, fs) ∧
    (panels_contributionS ops ps vort X Y).2 = (ps, vort) :=
  ⟨rfl, rfl, rfl, rfl⟩

/-- C3: rhs_setup returns a vector of length N+1; entry i < N is the
negative of the freestream velocity component along the normal of
panel i, and the last (Kutta) entry is 0. -/
theorem c3_rhs_entries (ops : RealOps K) (ps : List (Panel K)) (fs : Freestream K)
    (i : ℕ) (hi : i < ps.length) :
    (rhs_setup ops ps fs).length = ps.length + 1 ∧
    (rhs_setup ops ps fs).getD i 0 =
      -(fs.v_inf * ops.cosf fs.alpha * (ps.getD i (panelDefault ops)).nx
        + fs.v_inf * ops.sinf fs.alpha * (ps.getD i (panelDefault ops)).nz) ∧
    (rhs_setup ops ps fs).getD ps.length 0 = 0 := by
  refine ⟨by simp [rhs_setup], ?_, ?_⟩
  · rw [rhs_setup, getD_range_map _ _ _ _ (Nat.lt_succ_of_lt hi), if_pos hi]
    ring
  · rw [rhs_setup, getD_range_map _ _ _ _ (Nat.lt_succ_self _), if_neg (lt_irrefl _)]

/-- A witness instance of C3 on a concrete one-panel list and
freestream over the rationals. -/
theorem c3_rhs_entries_witness :
    (0 < [mkPanel ratOps 0 0 0 1].length) ∧
    ((rhs_setup ratOps [mkPanel ratOps 0 0 0 1] ⟨2, 3⟩).length
        = [mkPanel ratOps 0 0 0 1].length + 1 ∧
     (rhs_setup ratOps [mkPanel ratOps 0 0 0 1] ⟨2, 3⟩).getD 0 0 =
       -((2 : ℚ) * ratOps.cosf 3 * ([mkPanel ratOps 0 0 0 1].getD 0 (panelDefault ratOps)).nx
         + 2 * ratOps.sinf 3 * ([mkPanel ratOps 0 0 0 1].getD 0 (panelDefault ratOps)).nz) ∧
     (rhs_setup ratOps [mkPanel ratOps 0 0 0 1] ⟨2, 3⟩).getD
        [mkPanel ratOps 0 0 0 1].length 0 = 0) :=
  ⟨by decide, c3_rhs_entries ratOps [mkPanel ratOps 0 0 0 1] ⟨2, 3⟩ 0 (by decide)⟩

/-- C2: the last row of the matrix returned by lhs_setup has entry 1
in columns 0 and N, entry 0 in every other column, and exactly two
nonzero entries, for every nonempty panel list and every geometry. -/
theorem c2_kutta_row (ops : RealOps K) (ps : List (Panel K)) (M : ℕ → ℕ → K)
    (hne : ps ≠ []) (hok : lhs_setup ops ps = Except.ok M) :
    (∀ j ≤ ps.length, M ps.length j = if j = 0 ∨ j = ps.length then 1 else 0) ∧
    ((Finset.range (ps.length + 1)).filter fun j => M ps.length j ≠ 0).card = 2 := by
  rw [lhs_setup] at hok
  by_cases h : lhs_okB ops ps = true
  · rw [if_pos h] at hok
    injection hok with hM
    subst hM
    have hrow : ∀ j, lhs_entry ops ps ps.length j
        = if j = 0 ∨ j = ps.length then 1 else 0 := by
      intro j
      simp [lhs_entry]
    refine ⟨fun j _ => hrow j, ?_⟩
    have hN : 0 < ps.length := List.length_pos.mpr hne
    have hset : ((Finset.range (ps.length + 1)).filter
        fun j => lhs_entry ops ps ps.length j ≠ 0) = {0, ps.length} := by
      ext j
      simp only [Finset.mem_filter, Finset.mem_range, hrow, Finset.mem_insert,
        Finset.mem_singleton]
      constructor
      · rintro ⟨-, hj⟩
        by_contra hc
        push_neg at hc
        rw [if_neg (by tauto)] at hj
        exact hj rfl
      · rintro (rfl | rfl)
        · exact ⟨Nat.succ_pos _, by simp⟩
        · exact ⟨Nat.lt_succ_self _, by simp⟩
    rw [hset, Finset.card_insert_of_not_mem (by simp [hN.ne]), Finset.card_singleton]
  · rw [if_neg h] at hok
    cases hok

/-- A witness instance of C2 on a concrete one-panel list over the
rationals: the kernel calls all succeed there, and the Kutta row is
(1, 1). -/
theorem c2_kutta_row_witness :
    ([mkPanel ratOps 0 0 1 0] ≠ ([] : List (Panel ℚ))) ∧
    ((∀ j ≤ [mkPanel ratOps 0 0 1 0].length,
        lhs_entry ratOps [mkPanel ratOps 0 0 1 0] [mkPanel ratOps 0 0 1 0].length j
          = if j = 0 ∨ j = [mkPanel ratOps 0 0 1 0].length then 1 else 0) ∧
     ((Finset.range ([mkPanel ratOps 0 0 1 0].length + 1)).filter
        fun j => lhs_entry ratOps [mkPanel ratOps 0 0 1 0]
          [mkPanel ratOps 0 0 1 0].length j ≠ 0).card = 2) :=
  ⟨List.cons_ne_nil _ _,
    c2_kutta_row ratOps [mkPanel ratOps 0 0 1 0]
      (lhs_entry ratOps [mkPanel ratOps 0 0 1 0]) (List.cons_ne_nil _ _)
      (by with_unfolding_all rfl)⟩

/-- The interpolation loop returns one z-coordinate per candidate
abscissa when it succeeds. -/
theorem zEndsLoop_ok_length (xs zs : List K) :
    ∀ (cs : List K) (I : ℕ) (zl : List K),
      zEndsLoop xs zs cs I = Except.ok zl → zl.length = cs.length := by
  intro cs
  induction cs with
  | nil =>
    intro I zl h
    rw [zEndsLoop] at h
    injection h with h
    subst h
    rfl
  | cons c rest ih =>
    intro I zl h
    rw [zEndsLoop] at h
    by_cases hb : findI xs c xs.length I + 1 < xs.length
    · rw [if_pos hb] at h
      cases hr : zEndsLoop xs zs rest (findI xs c xs.length I) with
      | ok others =>
        rw [hr] at h
        injection h with h
        subst h
        simp [ih _ _ hr]
      | error e => rw [hr] at h; cases h
    · rw [if_neg hb] at h; cases h

/-- C4: when define_panels succeeds it returns exactly N panels for
an even request and N-1 panels for an odd request (the odd request is
silently reduced; no error arises from the oddness itself). -/
theorem c4_panel_count (ops : RealOps K) (xs zs : List K) (N : ℕ)
    (ps : List (Panel K)) (hN : 2 ≤ N)
    (h : define_panels ops xs zs N = Except.ok ps) :
    ps.length = if N % 2 = 0 then N else N - 1 := by
  rw [define_panels] at h
  cases hz : zEndsLoop (closeContour xs zs).1 (closeContour xs zs).2 (candList ops xs N) 0 with
  | error e => rw [hz] at h; cases h
  | ok zEnds =>
    rw [hz] at h
    injection h with h
    subst h
    have hlen : (buildPanels ops xs N zEnds).length = panelN N := by
      simp [buildPanels]
    rw [hlen, panelN]
    rcases Nat.mod_two_eq_zero_or_one N with h2 | h2 <;> simp [h2]

/-- A witness instance of C4: an odd request of 3 panels on a
concrete rational geometry succeeds and yields 2 panels. -/
theorem c4_panel_count_witness :
    2 ≤ 3 ∧
    define_panels ratOps [(0 : ℚ), 1] [0, 0] 3 =
      Except.ok [mkPanel ratOps (1/2) 0 (1/2) 0, mkPanel ratOps (1/2) 0 (1/2) 0] ∧
    ([mkPanel ratOps (1/2 : ℚ) 0 (1/2) 0, mkPanel ratOps (1/2) 0 (1/2) 0].length
      = if 3 % 2 = 0 then 3 else 3 - 1) :=
  ⟨by decide, by with_unfolding_all rfl,
    c4_panel_count ratOps [(0 : ℚ), 1] [0, 0] 3
      [mkPanel ratOps (1/2) 0 (1/2) 0, mkPanel ratOps (1/2) 0 (1/2) 0] (by decide)
      (by with_unfolding_all rfl)⟩

/-- When no bracketing segment exists for the candidate, the scan
pointer runs to the end of the coordinate array. -/
theorem findI_no_bracket (xs : List K) (c : K)
    (h : ∀ J < xs.length - 1, ¬ bracketProp xs c J) :
    ∀ fuel I : ℕ, xs.length - 1 ≤ fuel + I → xs.length - 1 ≤ findI xs c fuel I := by
  intro fuel
  induction fuel with
  | zero =>
    intro I hI
    rw [findI]
    omega
  | succ fuel ih =>
    intro I hI
    rw [findI]
    by_cases hlt : I < xs.length - 1
    · rw [if_pos hlt, if_neg (h I hlt)]
      exact ih (I + 1) (by omega)
    · rw [if_neg hlt]
      omega

/-- When some candidate in the list has no bracketing segment
anywhere in the closed polyline, the interpolation loop fails with
the geometry error, whatever the initial scan pointer. -/
theorem zEndsLoop_bad_candidate (xs zs : List K) :
    ∀ (cs : List K) (i : ℕ), i < cs.length →
      (∀ J < xs.length - 1, ¬ bracketProp xs (cs.getD i 0) J) →
      ∀ I, zEndsLoop xs zs cs I = Except.error GeometryError.bracketFailure := by
  intro cs
  induction cs with
  | nil =>
    intro i hi
    exact absurd hi (by simp)
  | cons c rest ih =>
    intro i hi hnb I
    rw [zEndsLoop]
    cases i with
    | zero =>
      have hJ := findI_no_bracket xs c (by simpa using hnb) xs.length I (by omega)
      rw [if_neg (by omega)]
    | succ k =>
      by_cases hb : findI xs c xs.length I + 1 < xs.length
      · rw [if_pos hb, ih k (by simpa using hi) (by simpa using hnb) _]
      · rw [if_neg hb]

/-- C6: when some scanned candidate abscissa has no bracketing
segment in the closed polyline, define_panels signals the geometry
error to the caller: no z-coordinate is extrapolated and no panel
list is returned. -/
theorem c6_bracket_failure (ops : RealOps K) (xs zs : List K) (N i : ℕ)
    (hi : i < panelN N)
    (hnb : ∀ J < (closeContour xs zs).1.length - 1,
      ¬ bracketProp (closeContour xs zs).1 (xEndAt ops xs (panelN N) i) J) :
    define_panels ops xs zs N = Except.error GeometryError.bracketFailure := by
  rw [define_panels]
  have hcand : (candList ops xs N).getD i 0 = xEndAt ops xs (panelN N) i :=
    getD_range_map _ _ _ _ hi
  have hlen : i < (candList ops xs N).length := by simp [candList, hi]
  rw [zEndsLoop_bad_candidate _ _ _ i hlen (by rw [hcand]; exact hnb) 0]

/-- A witness instance of C6: with a candidate projection that lands
outside the x-extent of a concrete rational geometry, define_panels
fails with the geometry error. -/
theorem c6_bracket_failure_witness :
    0 < panelN 2 ∧
    (∀ J < (closeContour [(0 : ℚ), 1] [0, 0]).1.length - 1,
      ¬ bracketProp (closeContour [(0 : ℚ), 1] [0, 0]).1
        (xEndAt ratOpsFar [(0 : ℚ), 1] (panelN 2) 0) J) ∧
    define_panels ratOpsFar [(0 : ℚ), 1] [0, 0] 2 =
      Except.error GeometryError.bracketFailure :=
  ⟨by decide, by with_unfolding_all decide,
    c6_bracket_failure ratOpsFar [(0 : ℚ), 1] [0, 0] 2 0 (by decide)
      (by with_unfolding_all decide)⟩

/-- The regular-branch velocity is linear in the two endpoint
strengths: evaluating at (ga, gb) is the strength-weighted sum of the
two unit evaluations. -/
theorem regularVel_linear (ops : RealOps K) (p : Panel K) (ri : K × K) (ga gb : K) :
    regularVel ops p ri ga gb
      = vadd (vscale ga (regularVel ops p ri 1 0)) (vscale gb (regularVel ops p ri 0 1)) := by
  simp only [regularVel, vadd, vsub, vscale, rotP, Prod.mk.injEq]
  constructor <;> ring

/-- The degenerate-branch velocity is linear in the two endpoint
strengths. -/
theorem degenVel_linear (ops : RealOps K) (p : Panel K) (ri : K × K) (ga gb : K) :
    degenVel ops p ri ga gb
      = vadd (vscale ga (degenVel ops p ri 1 0)) (vscale gb (degenVel ops p ri 0 1)) := by
  simp only [degenVel, vadd, vsub, vscale, rotP, Prod.mk.injEq]
  constructor <;> ring

/-- Both branch velocities vanish at zero strengths. -/
theorem branchVel_zero (ops : RealOps K) (p : Panel K) (ri : K × K) :
    regularVel ops p ri 0 0 = ((0 : K), (0 : K)) ∧
    degenVel ops p ri 0 0 = ((0 : K), (0 : K)) := by
  constructor <;>
    [simp only [regularVel, vadd, vsub, vscale, rotP, Prod.mk.injEq];
     simp only [degenVel, vadd, vsub, vscale, rotP, Prod.mk.injEq]] <;>
    constructor <;> ring

/-- panel_contribution with its local bindings expanded; definitional
restatement used to manipulate the branch structure. -/
theorem pc_unfold (ops : RealOps K) (p : Panel K) (ri : K × K) (gj gj1 t : K) :
    panel_contribution ops p ri gj gj1 t =
      (if 4 * ((ri.1 - p.xa) * (ri.1 - p.xa) + (ri.2 - p.za) * (ri.2 - p.za))
          * ((p.xa - p.xb) * (p.xa - p.xb) + (p.za - p.zb) * (p.za - p.zb))
          - (2 * ((ri.1 - p.xa) * (p.xa - p.xb) + (ri.2 - p.za) * (p.za - p.zb))) ^ 2 ≤ t then
        if 2 * ((p.xa - p.xb) * (p.xa - p.xb) + (p.za - p.zb) * (p.za - p.zb)) * 1
            + 2 * ((ri.1 - p.xa) * (p.xa - p.xb) + (ri.2 - p.za) * (p.za - p.zb)) = 0
          ∨ 2 * ((p.xa - p.xb) * (p.xa - p.xb) + (p.za - p.zb) * (p.za - p.zb)) * 0
            + 2 * ((ri.1 - p.xa) * (p.xa - p.xb) + (ri.2 - p.za) * (p.za - p.zb)) = 0 then
          Except.error KernelError.domainError
        else Except.ok (degenVel ops p ri gj gj1)
      else Except.ok (regularVel ops p ri gj gj1)) := rfl

/-- C10: wherever panel_contribution is defined, its value is linear
in the two endpoint strengths (the branch selection and the domain
check do not depend on the strengths, and each branch velocity is a
strength-weighted combination of fixed geometric terms); in
particular the zero-strength influence is the zero vector. -/
theorem c10_linearity (ops : RealOps K) (p : Panel K) (ri : K × K) (ga gb t : K)
    (v1 v2 : K × K)
    (h1 : panel_contribution ops p ri 1 0 t = Except.ok v1)
    (h2 : panel_contribution ops p ri 0 1 t = Except.ok v2) :
    panel_contribution ops p ri ga gb t
      = Except.ok (vadd (vscale ga v1) (vscale gb v2)) ∧
    panel_contribution ops p ri 0 0 t = Except.ok ((0 : K), (0 : K)) := by
  simp only [pc_unfold] at h1 h2 ⊢
  by_cases hc1 : (4 * ((ri.1 - p.xa) * (ri.1 - p.xa) + (ri.2 - p.za) * (ri.2 - p.za))
      * ((p.xa - p.xb) * (p.xa - p.xb) + (p.za - p.zb) * (p.za - p.zb))
      - (2 * ((ri.1 - p.xa) * (p.xa - p.xb) + (ri.2 - p.za) * (p.za - p.zb))) ^ 2) ≤ t
  · simp only [if_pos hc1] at h1 h2 ⊢
    by_cases hc2 : 2 * ((p.xa - p.xb) * (p.xa - p.xb) + (p.za - p.zb) * (p.za - p.zb)) * 1
        + 2 * ((ri.1 - p.xa) * (p.xa - p.xb) + (ri.2 - p.za) * (p.za - p.zb)) = 0
        ∨ 2 * ((p.xa - p.xb) * (p.xa - p.xb) + (p.za - p.zb) * (p.za - p.zb)) * 0
        + 2 * ((ri.1 - p.xa) * (p.xa - p.xb) + (ri.2 - p.za) * (p.za - p.zb)) = 0
    · rw [if_pos hc2] at h1
      cases h1
    · simp only [if_neg hc2] at h1 h2 ⊢
      injection h1 with h1
      injection h2 with h2
      subst h1
      subst h2
      exact ⟨congrArg Except.ok (degenVel_linear ops p ri ga gb),
        congrArg Except.ok (branchVel_zero ops p ri).2⟩
  · simp only [if_neg hc1] at h1 h2 ⊢
    injection h1 with h1
    injection h2 with h2
    subst h1
    subst h2
    exact ⟨congrArg Except.ok (regularVel_linear ops p ri ga gb),
      congrArg Except.ok (branchVel_zero ops p ri).1⟩

/-- A witness instance of C10 at a concrete rational panel, a far
target (the regular branch fires) and strengths 2 and 3. -/
theorem c10_linearity_witness :
    panel_contribution ratOps (mkPanel ratOps 0 0 1 0) (5, 7) 1 0 0
      = Except.ok (regularVel ratOps (mkPanel ratOps 0 0 1 0) (5, 7) 1 0) ∧
    panel_contribution ratOps (mkPanel ratOps 0 0 1 0) (5, 7) 0 1 0
      = Except.ok (regularVel ratOps (mkPanel ratOps 0 0 1 0) (5, 7) 0 1) ∧
    (panel_contribution ratOps (mkPanel ratOps 0 0 1 0) (5, 7) 2 3 0
      = Except.ok (vadd (vscale 2 (regularVel ratOps (mkPanel ratOps 0 0 1 0) (5, 7) 1 0))
          (vscale 3 (regularVel ratOps (mkPanel ratOps 0 0 1 0) (5, 7) 0 1))) ∧
     panel_contribution ratOps (mkPanel ratOps 0 0 1 0) (5, 7) 0 0 0
      = Except.ok ((0 : ℚ), (0 : ℚ))) :=
  ⟨by with_unfolding_all rfl, by with_unfolding_all rfl,
    c10_linearity ratOps (mkPanel ratOps 0 0 1 0) (5, 7) 2 3 0 _ _
      (by with_unfolding_all rfl) (by with_unfolding_all rfl)⟩

/-- C8: a panel built from two distinct endpoints has its orientation
angle beta in [0, 2 pi), stores the normal (cos beta, sin beta), and
carries the upper tag exactly when beta <= pi. -/
theorem c8_panel_orientation (xa za xb zb : ℝ) (h : (xa, za) ≠ (xb, zb)) :
    0 ≤ (mkPanel realOps xa za xb zb).beta ∧
    (mkPanel realOps xa za xb zb).beta < 2 * Real.pi ∧
    (mkPanel realOps xa za xb zb).nx = Real.cos (mkPanel realOps xa za xb zb).beta ∧
    (mkPanel realOps xa za xb zb).nz = Real.sin (mkPanel realOps xa za xb zb).beta ∧
    ((mkPanel realOps xa za xb zb).loc = Loc.upper ↔
      (mkPanel realOps xa za xb zb).beta ≤ Real.pi) := by
  have hsum : 0 < (xb - xa) ^ 2 + (zb - za) ^ 2 := by
    rcases lt_or_eq_of_le (by positivity : (0:ℝ) ≤ (xb - xa) ^ 2 + (zb - za) ^ 2) with hlt | heq
    · exact hlt
    · exfalso
      apply h
      have hx : xb - xa = 0 := by nlinarith [sq_nonneg (xb - xa), sq_nonneg (zb - za)]
      have hz : zb - za = 0 := by nlinarith [sq_nonneg (xb - xa), sq_nonneg (zb - za)]
      have : xa = xb := by linarith
      have : za = zb := by linarith
      simp_all
  have hlen : 0 < Real.sqrt ((xb - xa) ^ 2 + (zb - za) ^ 2) := Real.sqrt_pos.mpr hsum
  set len := Real.sqrt ((xb - xa) ^ 2 + (zb - za) ^ 2) with hlendef
  have habs : |zb - za| ≤ len := by
    rw [hlendef, ← Real.sqrt_sq_eq_abs]
    exact Real.sqrt_le_sqrt (by nlinarith [sq_nonneg (xb - xa)])
  by_cases hc : xb - xa ≤ 0
  · have hbeta : (mkPanel realOps xa za xb zb).beta = Real.arccos ((zb - za) / len) := by
      simp only [mkPanel, realOps, if_pos hc, hlendef]
    have hb0 : 0 ≤ (mkPanel realOps xa za xb zb).beta := hbeta ▸ Real.arccos_nonneg _
    have hbpi : (mkPanel realOps xa za xb zb).beta ≤ Real.pi := hbeta ▸ Real.arccos_le_pi _
    refine ⟨hb0, by nlinarith [Real.pi_pos], by simp only [mkPanel, realOps],
      by simp only [mkPanel, realOps], ?_⟩
    have hloc : (mkPanel realOps xa za xb zb).loc = Loc.upper := by
      simp only [mkPanel, realOps, if_pos hc]
      rw [if_pos (Real.arccos_le_pi _)]
    simp [hloc, hbpi]
  · push_neg at hc
    have hxpos : 0 < xb - xa := hc
    have habslt : |zb - za| < len := by
      rw [hlendef, ← Real.sqrt_sq_eq_abs]
      exact Real.sqrt_lt_sqrt (sq_nonneg _) (by nlinarith)
    have hnotle : ¬ xb - xa ≤ 0 := not_le.mpr hc
    have hbeta : (mkPanel realOps xa za xb zb).beta
        = Real.pi + Real.arccos (-(zb - za) / len) := by
      simp only [mkPanel, realOps, if_neg hnotle, hlendef]
    have harg_gt : (-1 : ℝ) < -(zb - za) / len := by
      have h2 := (abs_lt.mp habslt).2
      rw [lt_div_iff₀ hlen]
      linarith
    have harg_lt : -(zb - za) / len < 1 := by
      have h1 := (abs_lt.mp habslt).1
      rw [div_lt_one hlen]
      linarith
    have harc_lt : Real.arccos (-(zb - za) / len) < Real.pi := by
      rcases lt_or_eq_of_le (Real.arccos_le_pi (-(zb - za) / len)) with hlt | heq
      · exact hlt
      · exact absurd (Real.arccos_eq_pi.mp heq) (not_le.mpr harg_gt)
    have harc_pos : 0 < Real.arccos (-(zb - za) / len) := Real.arccos_pos.mpr harg_lt
    refine ⟨?_, ?_, by simp only [mkPanel, realOps], by simp only [mkPanel, realOps], ?_⟩
    · rw [hbeta]
      have := Real.arccos_nonneg (-(zb - za) / len)
      nlinarith [Real.pi_pos]
    · rw [hbeta]
      nlinarith
    · have hgt : ¬ (mkPanel realOps xa za xb zb).beta ≤ Real.pi := by
        rw [hbeta]
        nlinarith
      have hloc : (mkPanel realOps xa za xb zb).loc = Loc.lower := by
        simp only [mkPanel, realOps, if_neg hnotle]
        rw [if_neg]
        intro hle
        apply hgt
        rw [hbeta]
        simpa using hle
      simp [hloc, hgt]

/-- A witness instance of C8 on a concrete panel with distinct
endpoints. -/
theorem c8_panel_orientation_witness :
    ((0:ℝ), (0:ℝ)) ≠ ((1:ℝ), (0:ℝ)) ∧
    (0 ≤ (mkPanel realOps 0 0 1 0).beta ∧
     (mkPanel realOps 0 0 1 0).beta < 2 * Real.pi ∧
     (mkPanel realOps 0 0 1 0).nx = Real.cos (mkPanel realOps 0 0 1 0).beta ∧
     (mkPanel realOps 0 0 1 0).nz = Real.sin (mkPanel realOps 0 0 1 0).beta ∧
     ((mkPanel realOps 0 0 1 0).loc = Loc.upper ↔
       (mkPanel realOps 0 0 1 0).beta ≤ Real.pi)) :=
  ⟨fun hq => absurd (congrArg Prod.fst hq) (by norm_num),
    c8_panel_orientation 0 0 1 0 (fun hq => absurd (congrArg Prod.fst hq) (by norm_num))⟩


/-- C5: for an even request of at least two panels, a successful
define_panels run over the reals returns a closed panel array: the
second endpoint of the last panel coincides with the first endpoint
of the first panel in both coordinates (the x-coordinates agree
because cos(2 pi) = cos 0, the z-coordinate is forced), and the
second endpoint of each panel is the first endpoint of the next. -/
theorem c5_closure (xs zs : List ℝ) (N : ℕ) (ps : List (Panel ℝ))
    (hN2 : 2 ≤ N) (hEven : N % 2 = 0)
    (h : define_panelsR xs zs N = Except.ok ps) :
    ((ps.getD (ps.length - 1) (panelDefault realOps)).xb
        = (ps.getD 0 (panelDefault realOps)).xa ∧
     (ps.getD (ps.length - 1) (panelDefault realOps)).zb
        = (ps.getD 0 (panelDefault realOps)).za) ∧
    (∀ i, i + 1 < ps.length →
      (ps.getD i (panelDefault realOps)).xb = (ps.getD (i + 1) (panelDefault realOps)).xa ∧
      (ps.getD i (panelDefault realOps)).zb = (ps.getD (i + 1) (panelDefault realOps)).za) := by
  rw [define_panelsR, define_panels] at h
  cases hz : zEndsLoop (closeContour xs zs).1 (closeContour xs zs).2 (candList realOps xs N) 0 with
  | error e => rw [hz] at h; cases h
  | ok zEnds =>
    rw [hz] at h
    injection h with h
    subst h
    have hn : panelN N = N := by rw [panelN, if_neg (by omega)]
    have hzlen : zEnds.length = N := by
      have := zEndsLoop_ok_length _ _ _ _ _ hz
      simpa [candList, hn] using this
    have hlen : (buildPanels realOps xs N zEnds).length = N := by
      simp [buildPanels, hn]
    have hN0 : ((N : ℝ)) ≠ 0 := Nat.cast_ne_zero.mpr (by omega)
    have hgetD : ∀ i, i < N →
        (buildPanels realOps xs N zEnds).getD i (panelDefault realOps)
          = mkPanel realOps (xEndAt realOps xs (panelN N) i)
              ((zEnds ++ [zEnds.headD 0]).getD i 0)
              (xEndAt realOps xs (panelN N) (i + 1))
              ((zEnds ++ [zEnds.headD 0]).getD (i + 1) 0) := by
      intro i hi
      simp only [buildPanels]
      exact getD_range_map _ _ _ _ (by omega)
    constructor
    · have hlast : (buildPanels realOps xs N zEnds).length - 1 = N - 1 := by rw [hlen]
      have hsub : N - 1 + 1 = N := by omega
      rw [hlast, hgetD (N - 1) (by omega), hgetD 0 (by omega), hsub]
      constructor
      · show xEndAt realOps xs (panelN N) N = xEndAt realOps xs (panelN N) 0
        rw [xEndAt, xEndAt, hn]
        have h2pi : 2 * realOps.piv * ((N : ℝ)) / ((N : ℝ)) = 2 * Real.pi := by
          rw [mul_div_assoc, div_self hN0, mul_one]
          rfl
        have h0 : 2 * realOps.piv * ((0 : ℕ) : ℝ) / ((N : ℝ)) = 0 := by
          simp
        rw [h2pi, h0]
        show xCenterOf xs + circleR xs * Real.cos (2 * Real.pi)
          = xCenterOf xs + circleR xs * Real.cos 0
        rw [Real.cos_two_pi, Real.cos_zero]
      · show (zEnds ++ [zEnds.headD 0]).getD N 0 = (zEnds ++ [zEnds.headD 0]).getD 0 0
        rw [List.getD_append_right _ _ _ _ (le_of_eq hzlen), hzlen, Nat.sub_self,
          List.getD_append _ _ _ _ (by omega)]
        cases zEnds with
        | nil => simp at hzlen; omega
        | cons a l => rfl
    · intro i hip
      rw [hlen] at hip
      rw [hgetD i (by omega), hgetD (i + 1) (by omega)]
      exact ⟨rfl, rfl⟩


/-- A witness instance of C5 on a concrete degenerate-width geometry
whose reference circle has radius zero, evaluated over the reals. -/
theorem c5_closure_witness :
    2 ≤ 2 ∧ 2 % 2 = 0 ∧
    define_panelsR [0, 0] [0, 0] 2
      = Except.ok [mkPanel realOps 0 0 0 0, mkPanel realOps 0 0 0 0] ∧
    (([mkPanel realOps 0 0 0 0, mkPanel realOps 0 0 0 0].getD
        ([mkPanel realOps 0 0 0 0, mkPanel realOps 0 0 0 0].length - 1)
        (panelDefault realOps)).xb
      = ([mkPanel realOps 0 0 0 0, mkPanel realOps 0 0 0 0].getD 0 (panelDefault realOps)).xa ∧
     ([mkPanel realOps 0 0 0 0, mkPanel realOps 0 0 0 0].getD
        ([mkPanel realOps 0 0 0 0, mkPanel realOps 0 0 0 0].length - 1)
        (panelDefault realOps)).zb
      = ([mkPanel realOps 0 0 0 0, mkPanel realOps 0 0 0 0].getD 0 (panelDefault realOps)).za) ∧
    (([mkPanel realOps 0 0 0 0, mkPanel realOps 0 0 0 0].getD 0 (panelDefault realOps)).xb
      = ([mkPanel realOps 0 0 0 0, mkPanel realOps 0 0 0 0].getD 1 (panelDefault realOps)).xa ∧
     ([mkPanel realOps 0 0 0 0, mkPanel realOps 0 0 0 0].getD 0 (panelDefault realOps)).zb
      = ([mkPanel realOps 0 0 0 0, mkPanel realOps 0 0 0 0].getD 1 (panelDefault realOps)).za) := by
  have hok : define_panelsR [(0:ℝ), 0] [0, 0] 2
      = Except.ok [mkPanel realOps 0 0 0 0, mkPanel realOps 0 0 0 0] := by
    simp [define_panelsR, define_panels, closeContour, candList, panelN, List.range_succ,
      xEndAt, xCenterOf, circleR, listMax, listMin, zEndsLoop, findI, bracketProp,
      zStation, buildPanels]
  have h := c5_closure [0, 0] [0, 0] 2 [mkPanel realOps 0 0 0 0, mkPanel realOps 0 0 0 0]
    (by omega) (by omega) hok
  exact ⟨by omega, by omega, hok, h.1, h.2 0 (by simp)⟩

end LVVP
